import Mathlib

/-!
Verification of the Xorion explorer connection store and its helpers.

The TypeScript source consists of a Polkadot-based connection store
(`src/unnamed/part_001`) and a standalone balance formatter
(`src/src/lib/utils.ts`).  Each definition below is a shallow embedding of
the correspondingly named function of the source; JavaScript strings are
modelled as `List Char`, arbitrary-precision `BN` values as `Nat`, and
IEEE-754 `number` values as exact rationals obtained by explicit rounding
to a 53-bit mantissa.  Fallible code is modelled with `Except`/`Option`.
-/

namespace Xorion

/-! ## Generic string and digit helpers -/

/-- Digit value of a decimal digit character, as in JavaScript string-to-number
conversion (`'0'` has code 48). -/
def charToDigit (c : Char) : Nat := c.toNat - 48

/-- Base-10 value of a big-endian list of digit characters, the number a
JavaScript `BN`/`Number` conversion reads from a digit string. -/
def natOfDigits (l : List Char) : Nat :=
  l.foldl (fun acc c => acc * 10 + charToDigit c) 0

/-- Big-endian decimal digit characters of a natural number, as produced by
JavaScript `toString()` on a `BN` (zero prints as a single `0`). -/
def digitsOfNat (n : Nat) : List Char :=
  if n = 0 then ['0'] else ((Nat.digits 10 n).reverse.map Nat.digitChar)

/-! ## The compact balance formatter (`formatTxor`, `src/unnamed/part_001`) -/

/-- Model of the `bn.js` string constructor `new BN(rawBalance)` used by the
store formatter: parses a base-10 numeral, raising `Invalid character` on any
non-digit (the library asserts on invalid characters). -/
def bnFromString (s : List Char) : Except String Nat :=
  if s.all Char.isDigit then .ok (natOfDigits s) else .error "Invalid character"

/-- Left-pad a digit list with `0` up to length `n`, as `String.padStart`. -/
def padStartZeros (n : Nat) (l : List Char) : List Char :=
  List.replicate (n - l.length) '0' ++ l

/-- Drop trailing `0` characters, as the `replace(/0+$/, "")` of the source. -/
def stripTrailingZeros (l : List Char) : List Char :=
  (l.reverse.dropWhile (fun c => c = '0')).reverse

/-- The compact store balance formatter of `src/unnamed/part_001` (lines
11-23): guards empty and `"0"` input, then BN-divides by `10 ^ decimals`,
zero-pads the remainder to `decimals` digits, keeps four fractional digits and
strips trailing zeros.  The `Except` layer records the exception the BN
constructor raises on a malformed numeral. -/
def formatTxorStore (rawBalance : List Char) (decimals : Nat := 18) :
    Except String (List Char) :=
  if rawBalance = [] ∨ rawBalance = ['0'] then .ok ['0'] else
  match bnFromString rawBalance with
  | .error e => .error e
  | .ok bn =>
      let divisor := 10 ^ decimals
      let whole := digitsOfNat (bn / divisor)
      let fraction :=
        stripTrailingZeros ((padStartZeros decimals (digitsOfNat (bn % divisor))).take 4)
      .ok (if fraction ≠ [] then whole ++ '.' :: fraction else whole)

/-- Integer part of a formatted balance string: the digits before the first
dot, read back as a number. -/
def intPartNat (l : List Char) : Nat :=
  natOfDigits (l.takeWhile (fun c => c ≠ '.'))

/-! ## The padded balance formatter (`formatTxor`, `src/src/lib/utils.ts`)

The utils formatter goes through JavaScript `number` values:
`parseFloat`, `Math.pow` and `/` all operate on IEEE-754 binary64.  A
non-negative finite binary64 value is modelled by an exact mantissa-exponent
pair denoting `m * 2 ^ e`, and each operation by the exact result rounded to
a 53-bit mantissa with round-to-nearest, ties-to-even (the rounding IEEE-754
and a correctly rounded `parseFloat` perform; the inputs of interest are
mid-range, so overflow and subnormals do not arise). -/

/-- A non-negative finite binary64 value `m * 2 ^ e`. -/
structure Bin64 where
  m : Nat
  e : Int
  deriving DecidableEq, Repr

/-- Round `a / b` (with `b ≠ 0`) to the nearest integer, ties to even. -/
def roundNEdiv (a b : Nat) : Nat :=
  let q := a / b
  let r := a % b
  if 2 * r < b then q
  else if b < 2 * r then q + 1
  else if q % 2 = 0 then q else q + 1

/-- Fuelled base-2 logarithm (the fuel, 1200, covers every finite binary64
magnitude; written with explicit fuel so that it evaluates by kernel
reduction). -/
def natLog2Fuel : Nat → Nat → Nat
  | 0, _ => 0
  | fuel + 1, n => if 2 ≤ n then natLog2Fuel fuel (n / 2) + 1 else 0

def natLog2M (n : Nat) : Nat := natLog2Fuel 1200 n

/-- Test `a / b ≥ 2 ^ E` for naturals `a b` and integer exponent `E`. -/
def ratGePow2 (a b : Nat) (E : Int) : Bool :=
  if 0 ≤ E then b * 2 ^ E.toNat ≤ a else b ≤ a * 2 ^ (-E).toNat

/-- Floor of the base-2 logarithm of the positive rational `a / b`. -/
def ratFloorLog2 (a b : Nat) : Int :=
  let E : Int := (natLog2M a : Int) - (natLog2M b : Int)
  if ratGePow2 a b E then E else E - 1

/-- The binary64 nearest to `a / b` (round-to-nearest, ties-to-even on a
53-bit mantissa; zero when `a = 0`). -/
def roundBin64 (a b : Nat) : Bin64 :=
  if a = 0 then ⟨0, 0⟩ else
  let e := ratFloorLog2 a b - 52
  let m := if 0 ≤ e then roundNEdiv a (b * 2 ^ e.toNat)
           else roundNEdiv (a * 2 ^ (-e).toNat) b
  ⟨m, e⟩

/-- Division of binary64 values: the exact quotient as a fraction of
naturals, rounded back to binary64. -/
def divBin64 (x y : Bin64) : Bin64 :=
  let shift := x.e - y.e
  if 0 ≤ shift then roundBin64 (x.m * 2 ^ shift.toNat) y.m
  else roundBin64 x.m (y.m * 2 ^ (-shift).toNat)

/-- Model of JavaScript `parseFloat` on the cleaned input: reads the longest
leading run of decimal digits (the inputs under the claims are integer
numerals, so signs, dots and exponents are not modelled); an input with no
leading digit gives `NaN`, modelled as `none`.  The resulting value is the
binary64 nearest to the numeral. -/
def jsParseFloat (s : List Char) : Option Bin64 :=
  let ds := s.takeWhile Char.isDigit
  if ds = [] then none else some (roundBin64 (natOfDigits ds) 1)

/-- Floor of `a / b + 1 / 2` on naturals (`b ≠ 0`). -/
def floorPlusHalf (a b : Nat) : Nat := (2 * a + b) / (2 * b)

/-- The characters the `replace(/[,\s]/g, "")` cleaning step removes. -/
def isStrippedByClean (c : Char) : Bool :=
  c = ',' || c.toNat = 32 || c.toNat = 9 || c.toNat = 10 || c.toNat = 13

/-- Integer part of the string returned by `formatTxor` of
`src/src/lib/utils.ts`: commas and whitespace are stripped, the rest is
`parseFloat`-ed; `NaN` and `0` short-circuit to the canonical `0.0000`
(integer part `0`); otherwise the number is float-divided by
`Math.pow(10, decimals)` and rendered by `toLocaleString` with at most
`maxFractionDigits` fractional digits, i.e. rounded half-away-from-zero at
that digit count (grouping separators do not change the integer part, so the
model returns it as a number). -/
def formatTxorUtilsIntPart (s : List Char) (decimals : Nat := 18)
    (maxFractionDigits : Nat := 4) : Nat :=
  let clean := s.filter (fun c => !isStrippedByClean c)
  match jsParseFloat clean with
  | none => 0
  | some num =>
      if num.m = 0 then 0 else
      let divisor := roundBin64 (10 ^ decimals) 1
      let display := divBin64 num divisor
      let scaled :=
        if 0 ≤ display.e then display.m * 2 ^ display.e.toNat * 10 ^ maxFractionDigits
        else floorPlusHalf (display.m * 10 ^ maxFractionDigits) (2 ^ (-display.e).toNat)
      scaled / 10 ^ maxFractionDigits

structure EventM where
  sectionName : String
  methodName : String
  data : List String
  deriving DecidableEq, Repr

structure ExtrinsicCall where
  sectionName : String
  methodName : String
  args : List String
  signer : Option String
  deriving DecidableEq, Repr

/-- The `decodedData` payload the detector attaches. -/
inductive DecodedData where
  | noData : DecodedData
  | methodData (sectionName methodName : String) (args : List String) : DecodedData
  | eventData (eventSection eventMethod : String) (data : List String) : DecodedData
  | stakingData (sectionName methodName : String) (args : List String) : DecodedData
  deriving DecidableEq, Repr

/-- Result record of the detector.  `fromAddr`/`toAddr` stand for the
source's `from`/`to` (`from` is a Lean keyword). -/
structure TransferInfo where
  isTransfer : Bool
  fromAddr : Option String
  toAddr : Option String
  amount : Option String
  asset : String
  decoded : DecodedData
  deriving DecidableEq, Repr

/-- Substring test on character lists, as JavaScript `String.includes`. -/
def isSubstrOf (needle hay : List Char) : Bool :=
  match hay with
  | [] => needle.isEmpty
  | c :: t => needle.isPrefixOf (c :: t) || isSubstrOf needle t

/-- JavaScript `hay.includes(needle)`. -/
def jsIncludes (hay needle : String) : Bool := isSubstrOf needle.toList hay.toList

/-- JavaScript `String.toLowerCase` (the strings involved are ASCII). -/
def toLowerStr (s : String) : String := s.map Char.toLower

def transferMethodNames : List String :=
  ["transfer", "transferKeepAlive", "transferAll", "forceTransfer",
   "transferAllowDeath", "transferWithFee"]

def stakingMethodNames : List String :=
  ["bond", "bondExtra", "unbond", "withdrawUnbonded", "nominate", "chill"]

/-- The family of Transfer-shaped events the detector's event scan accepts:
the typed `api.events.<pallet>.<Event>.is` tests and their string fallbacks
both reduce to this section/method comparison. -/
def isTransferFamilyEvent (e : EventM) : Bool :=
  (e.sectionName == "balances" && e.methodName == "Transfer") ||
  (e.sectionName == "currencies" && e.methodName == "Transferred") ||
  (e.sectionName == "tokens" && e.methodName == "Transfer") ||
  (e.sectionName == "assets" && e.methodName == "Transferred")

/-- Model of `detectTransferFromExtrinsic` (`src/unnamed/part_001` lines
967-1074): method-name match first, then the event scan (whose hit sets
`isTransfer` and, when the first matching event carries at least three data
fields, overwrites `from`/`to`/`amount`), then the staking tagging. -/
def detectTransferFromExtrinsic (extrinsic : ExtrinsicCall) (events : List EventM) :
    TransferInfo :=
  let sec := extrinsic.sectionName
  let meth := extrinsic.methodName
  let args := extrinsic.args
  let info : TransferInfo :=
    { isTransfer := false, fromAddr := none, toAddr := none, amount := none,
      asset := "XOR", decoded := .noData }
  -- Method 1: check by extrinsic method
  let info :=
    if (sec == "balances" || sec == "currencies" || sec == "tokens" || sec == "assets") &&
        transferMethodNames.any (fun tm => jsIncludes (toLowerStr meth) (toLowerStr tm)) then
      let info := { info with isTransfer := true, fromAddr := extrinsic.signer }
      let info :=
        if 2 ≤ args.length then { info with toAddr := args.get? 0, amount := args.get? 1 }
        else info
      { info with decoded := .methodData sec meth args }
    else info
  -- Method 2: check by events
  let transferEvents := events.filter isTransferFamilyEvent
  let info :=
    match transferEvents with
    | [] => info
    | e :: _ =>
        let info := { info with isTransfer := true }
        let info :=
          if 3 ≤ e.data.length then
            { info with fromAddr := e.data.get? 0, toAddr := e.data.get? 1,
                        amount := e.data.get? 2 }
          else info
        { info with decoded := .eventData e.sectionName e.methodName e.data }
  -- Method 3: staking operations
  if sec == "staking" && stakingMethodNames.contains meth then
    { info with decoded := .stakingData sec meth args }
  else info

/-- Model of `calculateTransactionFee` (lines 1076-1098): the last datum of
the first withdrawal/fee-paid-shaped event, `"0"` when absent. -/
def calculateTransactionFee (events : List EventM) : String :=
  let feeEvents := events.filter (fun e =>
    (e.sectionName == "balances" && e.methodName == "Withdraw") ||
    (e.sectionName == "transactionPayment" && e.methodName == "TransactionFeePaid"))
  match feeEvents with
  | [] => "0"
  | e :: _ =>
      match e.data.getLast? with
      | some d => d
      | none => "0"

/-! ## Network metrics (`fetchNetworkDataWithTimeout`) -/

/-- JavaScript `Math.round`: round half toward positive infinity. -/
def jsMathRound (q : ℚ) : Int := ⌊q + 1 / 2⌋

/-- Validator preference entry: only the `blocked` flag feeds the health
computation. -/
structure ValidatorPrefs where
  blocked : Bool
  deriving DecidableEq, Repr

/-- The `networkHealth` computation of `fetchNetworkDataWithTimeout`
(`src/unnamed/part_001` lines 765-774): `totalValidators` is the number of
validator entries, `validatorsOnline` counts the non-blocked ones, and the
health is the rounded percentage, `0` when there are no validators. -/
def networkHealthOf (validatorsEntries : List ValidatorPrefs) : Int :=
  let totalValidators := validatorsEntries.length
  let validatorsOnline := (validatorsEntries.filter (fun p => !p.blocked)).length
  if 0 < totalValidators then
    jsMathRound ((validatorsOnline : ℚ) / (totalValidators : ℚ) * 100)
  else 0

/-! ## Connection manager

The store state, the module-level globals (`currentProvider`, `currentApi`,
`healthCheckInterval`, `reconnectTimeout`, `currentEndpointIndex`,
`retryDelay`, `eventListeners`) and the handlers registered on the provider
are collected into one record.  Timers are modelled by presence flags, wall
clocks and the success of a network attempt by explicit parameters, and the
`async` bodies by their sequences of state updates. -/

def CONNECTION_TIMEOUT : Nat := 30000
def MAX_RETRIES : Nat := 5
def INITIAL_RETRY_DELAY : Nat := 2000
def MAX_RETRY_DELAY : Nat := 30000
def HEALTH_CHECK_INTERVAL : Nat := 15000
def MAX_LATENCY : Nat := 1000

def ENDPOINTS : List String := ["wss://node01.xorion.network"]

inductive ConnStatus where
  | disconnected | connecting | connected | degraded | error
  deriving DecidableEq, Repr

structure ApiStateM where
  api : Option Unit
  status : ConnStatus
  lastError : Option String
  latency : Option Nat
  connectionAttempts : Nat
  lastSuccessfulConnection : Option Nat
  endpoint : Option String
  lastConnected : Option Nat
  deriving DecidableEq, Repr

/-- The initial `apiState` value of the store, also the value `disconnect`
resets to. -/
def initialApiState : ApiStateM :=
  { api := none, status := .disconnected, lastError := none, latency := none,
    connectionAttempts := 0, lastSuccessfulConnection := none, endpoint := none,
    lastConnected := none }

/-- Combined store plus module-global connection state.
`eventListenersKeys` models the keys of the `eventListeners` cleanup
registry (the source declares it and clears it but never adds to it);
`providerListenersAttached` records whether `setupProviderListeners` has
registered handlers on some provider (nothing in the source ever detaches
them, since the cleanup registry stays empty). -/
structure GState where
  apiState : ApiStateM
  api : Option Unit
  isLoading : Bool
  currentProvider : Option Unit
  currentApi : Option Unit
  healthCheckInterval : Bool
  reconnectTimeout : Bool
  currentEndpointIndex : Nat
  retryDelay : Nat
  eventListenersKeys : List String
  providerListenersAttached : Bool
  deriving DecidableEq, Repr

/-- Initial store and module state at load. -/
def initialGState : GState :=
  { apiState := initialApiState, api := none, isLoading := true,
    currentProvider := none, currentApi := none, healthCheckInterval := false,
    reconnectTimeout := false, currentEndpointIndex := 0,
    retryDelay := INITIAL_RETRY_DELAY, eventListenersKeys := [],
    providerListenersAttached := false }

/-- Model of `cleanupConnection` (lines 635-670): clears both timers, runs
the cleanups of the (empty) `eventListeners` registry and empties it, and
drops the module-level api/provider handles.  Handlers attached directly to
a provider are not touched, because the registry holds no cleanup for them. -/
def cleanupConnection (s : GState) : GState :=
  { s with healthCheckInterval := false, reconnectTimeout := false,
           eventListenersKeys := [], currentApi := none, currentProvider := none }

/-- Model of `scheduleReconnect` (lines 732-750): no-op if a reconnect timer
is already pending or the attempt counter has reached `MAX_RETRIES`;
otherwise arms the timer and doubles the backoff delay up to its ceiling. -/
def scheduleReconnect (s : GState) : GState :=
  if s.reconnectTimeout then s
  else if MAX_RETRIES ≤ s.apiState.connectionAttempts then s
  else { s with reconnectTimeout := true,
                retryDelay := min (s.retryDelay * 2) MAX_RETRY_DELAY }

/-- Model of `setupProviderListeners`: registers the connected/disconnected/
error handlers on the freshly created provider (and, faithfully to the
source, records nothing in the cleanup registry). -/
def setupProviderListeners (s : GState) : GState :=
  { s with providerListenersAttached := true }

/-- Model of `setupHealthMonitoring` (lines 697-730): starts the periodic
health-check interval unless one is already running. -/
def setupHealthMonitoring (s : GState) : GState :=
  if s.healthCheckInterval then s else { s with healthCheckInterval := true }

/-- The endpoint loop of `connect` (lines 310-381): tries each endpoint in
rotation; `oracle` tells whether connecting to a given endpoint succeeds,
`now` is the wall clock.  On the first success it records the endpoint and
timestamps, starts health monitoring and resets the backoff parameters; when
every endpoint has failed it records the error and schedules a reconnect. -/
def connectLoop (eps : List String) (startIndex : Nat) (oracle : String → Bool)
    (now : Nat) : Nat → Nat → GState → GState
  | 0, _, s =>
      scheduleReconnect
        { s with
          isLoading := false,
          apiState := { s.apiState with
                        status := .error,
                        lastError := some "All endpoints failed" } }
  | remaining + 1, i, s =>
      let endpointIndex := (startIndex + i) % eps.length
      let targetEndpoint := eps.getD endpointIndex ""
      let s := setupProviderListeners { s with currentProvider := some () }
      if oracle targetEndpoint then
        let s :=
          { s with
            api := some (),
            apiState := { s.apiState with
                          status := .connected,
                          endpoint := some targetEndpoint,
                          lastConnected := some now,
                          lastSuccessfulConnection := some now,
                          lastError := none } }
        let s := setupHealthMonitoring s
        { s with
          currentEndpointIndex := endpointIndex,
          retryDelay := INITIAL_RETRY_DELAY, isLoading := false }
      else
        let s := { s with
                   apiState := { s.apiState with
                                 lastError := some "connect failed" } }
        connectLoop eps startIndex oracle now remaining (i + 1) (cleanupConnection s)

/-- The synchronous prefix of `connect` (lines 296-302) executed before its
first suspension point: the connecting-guard has passed, loading is set and
the attempt counter incremented. -/
def connectPrefix (s : GState) : GState :=
  { s with
    isLoading := true,
    apiState := { s.apiState with
                  status := .connecting,
                  connectionAttempts := s.apiState.connectionAttempts + 1 } }

/-- Model of `connect` (lines 293-382): no-op while already connecting;
otherwise runs the prefix, tears the previous connection down and iterates
the endpoint list (the explicit endpoint, if supplied, replaces the list). -/
def connect (s : GState) (endpointArg : Option String) (oracle : String → Bool)
    (now : Nat) : GState :=
  if s.apiState.status = .connecting then s
  else
    let s := cleanupConnection (connectPrefix s)
    let endpointsToTry := match endpointArg with | some e => [e] | none => ENDPOINTS
    let startIndex := match endpointArg with | some _ => 0 | none => s.currentEndpointIndex
    connectLoop endpointsToTry startIndex oracle now endpointsToTry.length 0 s

/-- Model of `disconnect` (lines 384-400): full cleanup, then the store state
is reset to its initial value. -/
def disconnect (s : GState) : GState :=
  let s := cleanupConnection s
  { s with apiState := initialApiState, api := none }

/-- The `onDisconnected` handler `setupProviderListeners` registers (lines
680-684): flips the status and schedules a reconnect.  It runs when the
provider emits `disconnected`, which a `WsProvider` also does when its socket
is closed by a manual `disconnect()`. -/
def fireProviderDisconnected (s : GState) : GState :=
  scheduleReconnect
    { s with apiState := { s.apiState with status := .disconnected } }

/-- The connection-manager callbacks that can still fire in a given state:
the periodic health check, a pending reconnect timer, and the handlers
attached to a provider. -/
inductive CallbackKind where
  | healthCheckTick | reconnectFire | providerEvent
  deriving DecidableEq, Repr

def callbackEnabled (s : GState) : CallbackKind → Bool
  | .healthCheckTick => s.healthCheckInterval
  | .reconnectFire => s.reconnectTimeout
  | .providerEvent => s.providerListenersAttached

/-! ## Transaction reconstruction (`fetchEnhancedTransactionData`)

A fetched extrinsic carries its hash (as `toHex()` prints it), its call and
the signed-extension fields the detail view reads.  A raw event record
carries the event and its phase (`some i` for `ApplyExtrinsic(i)`).  The rpc
surface the function touches is modelled by an oracle record whose `none`
results stand for the rejections the source catches per unit of work. -/

structure ExtrinsicM where
  hash : List Char
  call : ExtrinsicCall
  nonce : Option Nat
  tip : Option String
  era : Option Nat
  signature : Option String
  deriving DecidableEq, Repr

structure EventRecordM where
  phase : Option Nat
  event : EventM
  deriving DecidableEq, Repr

structure SignedBlockM where
  extrinsics : List ExtrinsicM
  jsonSize : Nat
  deriving DecidableEq, Repr

structure TransactionM where
  hash : List Char
  blockNumber : Nat
  blockHash : List Char
  index : Nat
  methodName : String
  sectionName : String
  signer : String
  timestamp : Option Nat
  success : Bool
  fee : List Char
  args : List String
  isTransfer : Bool
  transferFrom : Option String
  transferTo : Option String
  transferAmount : Option (List Char)
  transferAsset : String
  events : List EventM
  decodedData : DecodedData
  deriving DecidableEq, Repr

structure BlockM where
  height : Nat
  hash : List Char
  timestamp : Option Nat
  txCount : Nat
  proposer : String
  size : Nat
  deriving DecidableEq, Repr

structure TransactionDataM where
  transactions : List TransactionM
  blocks : List BlockM
  deriving DecidableEq, Repr

/-- Model of JavaScript `Number(s)` on the strings involved (decimal digit
numerals): non-numeral input gives `NaN`, modelled `none` (the invalid
`Date` built from a `NaN` is also collapsed to a `none` timestamp). -/
def jsNumberOfString (s : String) : Option Nat :=
  if s.toList ≠ [] ∧ s.toList.all Char.isDigit then some (natOfDigits s.toList) else none

/-- Timestamp derivation of a block (lines 876-884): the first argument of a
`timestamp.set` extrinsic; none when no such extrinsic exists.  When the
`timestamp.set` call has no arguments, `args[0]` is `undefined` and the
`.toString()` on it throws, which the per-block catch swallows — hence the
`Except` layer. -/
def timestampOfBlock (blk : SignedBlockM) : Except String (Option Nat) :=
  match blk.extrinsics.find? (fun e =>
      e.call.sectionName == "timestamp" && e.call.methodName == "set") with
  | none => .ok none
  | some e =>
      match e.call.args.get? 0 with
      | none => .error "cannot read toString of undefined"
      | some a => .ok (jsNumberOfString a)

/-- Events applied at a given extrinsic index (the
`phase.isApplyExtrinsic && phase.asApplyExtrinsic.eq(index)` filter). -/
def extrinsicEventsFor (events : List EventRecordM) (index : Nat) : List EventM :=
  (events.filter (fun r => r.phase = some index)).map (fun r => r.event)

/-- The `api.events.system.ExtrinsicFailed.is` test. -/
def isExtrinsicFailed (e : EventM) : Bool :=
  e.sectionName == "system" && e.methodName == "ExtrinsicFailed"

/-- Builds the `Transaction` record for one extrinsic (lines 896-951).  The
`Except` layer records the exceptions the balance formatter can raise on a
malformed fee or transfer amount, which abort the enclosing per-block
processing. -/
def mkTransaction (blockNumber : Nat) (blockHash : List Char) (timestamp : Option Nat)
    (extrinsic : ExtrinsicM) (index : Nat) (events : List EventRecordM) :
    Except String TransactionM :=
  let extrinsicEvents := extrinsicEventsFor events index
  let success := !(extrinsicEvents.any isExtrinsicFailed)
  let transferInfo := detectTransferFromExtrinsic extrinsic.call extrinsicEvents
  let fee := calculateTransactionFee extrinsicEvents
  match formatTxorStore fee.toList with
  | .error err => .error err
  | .ok feeStr =>
      let mk (amountStr : Option (List Char)) : TransactionM :=
        { hash := extrinsic.hash, blockNumber := blockNumber, blockHash := blockHash,
          index := index, methodName := extrinsic.call.methodName,
          sectionName := extrinsic.call.sectionName,
          signer := extrinsic.call.signer.getD "System", timestamp := timestamp,
          success := success, fee := feeStr,
          args := extrinsic.call.args.map (fun a => a.take 50),
          isTransfer := transferInfo.isTransfer,
          transferFrom := transferInfo.fromAddr, transferTo := transferInfo.toAddr,
          transferAmount := amountStr, transferAsset := transferInfo.asset,
          events := extrinsicEvents, decodedData := transferInfo.decoded }
      match transferInfo.amount with
      | none => .ok (mk none)
      | some amt =>
          match formatTxorStore amt.toList with
          | .error err => .error err
          | .ok amtStr => .ok (mk (some amtStr))

/-- The `forEach` over a block's extrinsics: an exception thrown while
building one transaction aborts the loop, keeping the transactions already
pushed (`false` marks an aborted loop). -/
def processExtrinsics (blockNumber : Nat) (blockHash : List Char) (timestamp : Option Nat)
    (events : List EventRecordM) : List ExtrinsicM → Nat → List TransactionM × Bool
  | [], _ => ([], true)
  | e :: rest, index =>
      match mkTransaction blockNumber blockHash timestamp e index events with
      | .error _ => ([], false)
      | .ok t =>
          let (ts, ok) := processExtrinsics blockNumber blockHash timestamp events rest (index + 1)
          (t :: ts, ok)

/-- Per-block processing (lines 875-955): derive the timestamp, push the
block record, then build the transactions.  A timestamp-derivation throw
happens before the block record is pushed, so it skips the block entirely
(`none`); a throw inside the extrinsic loop keeps the block record and the
transactions built so far (`false` flag). -/
def processBlock (blockNumber : Nat) (blockHash : List Char) (blk : SignedBlockM)
    (events : List EventRecordM) : Option (BlockM × List TransactionM × Bool) :=
  match timestampOfBlock blk with
  | .error _ => none
  | .ok timestamp =>
      let blockRec : BlockM :=
        { height := blockNumber, hash := blockHash, timestamp := timestamp,
          txCount := blk.extrinsics.length, proposer := "Unknown", size := blk.jsonSize }
      some (blockRec, processExtrinsics blockNumber blockHash timestamp events blk.extrinsics 0)

/-- The rpc surface `fetchEnhancedTransactionData` touches.  A `none` result
models a rejected request, which the source catches at the granularity shown
in each stage. -/
structure TxApi where
  finalizedHead : Option (List Char)
  headerNumberOf : List Char → Option Nat
  blockHashOf : Nat → Option (List Char)
  blockAndEventsOf : List Char → Option (SignedBlockM × List EventRecordM)

/-- The window of the five most recent heights, clamped at zero (lines
824-827; the JS arithmetic is on signed numbers, hence the detour through
`Int`). -/
def windowBlockNumbers (latest : Nat) : List Nat :=
  (((List.range 5).map (fun i => (latest : Int) - (i : Int))).filter
    (fun n => 0 ≤ n)).map Int.toNat

/-- Stages 1-3 for one height: hash lookup (catch gives `null`), block and
event fetch (catch gives `null`), then processing. -/
def stepBlock (api : TxApi) (n : Nat) : Option (BlockM × List TransactionM × Bool) :=
  (api.blockHashOf n).bind fun h =>
    (api.blockAndEventsOf h).bind fun be =>
      processBlock n h be.1 be.2

def batchResults (api : TxApi) (latest : Nat) :
    List (Option (BlockM × List TransactionM × Bool)) :=
  (windowBlockNumbers latest).map (stepBlock api)

def batchBlocks (api : TxApi) (latest : Nat) : List BlockM :=
  (batchResults api latest).filterMap (fun r => r.map (fun x => x.1))

/-- All transactions the processing loop pushes, in loop order, before the
`slice(0, 100)` cap. -/
def batchTransactions (api : TxApi) (latest : Nat) : List TransactionM :=
  ((batchResults api latest).filterMap (fun r => r.map (fun x => x.2.1))).flatten

/-- Stable insertion into a list sorted by descending `blockNumber`, placing
the inserted element after existing entries of equal height. -/
def insertDescTx (t : TransactionM) : List TransactionM → List TransactionM
  | [] => [t]
  | x :: xs => if x.blockNumber < t.blockNumber then t :: x :: xs else x :: insertDescTx t xs

/-- The stable `sort((a, b) => b.blockNumber - a.blockNumber)` of the source. -/
def sortDescTx (l : List TransactionM) : List TransactionM :=
  l.foldl (fun acc t => insertDescTx t acc) []

/-- Model of `fetchEnhancedTransactionData` (lines 804-965): empty result if
the finalized head or its header cannot be fetched; otherwise the staged
per-height pipeline, with the transaction list capped at 100 entries and
sorted by descending height. -/
def fetchEnhancedTransactionData (api : TxApi) : TransactionDataM :=
  match api.finalizedHead with
  | none => { transactions := [], blocks := [] }
  | some head =>
      match api.headerNumberOf head with
      | none => { transactions := [], blocks := [] }
      | some latestBlockNumber =>
          { transactions := sortDescTx ((batchTransactions api latestBlockNumber).take 100),
            blocks := batchBlocks api latestBlockNumber }

/-! ## Transaction locator (`findTransactionByHash` / `performTransactionSearch`) -/

/-- JavaScript whitespace test for the characters `trim` strips (space, tab,
line feed, carriage return cover the inputs of interest). -/
def isJsSpace (c : Char) : Bool :=
  c.toNat = 32 || c.toNat = 9 || c.toNat = 10 || c.toNat = 13

/-- JavaScript `String.trim`. -/
def jsTrim (l : List Char) : List Char :=
  ((l.dropWhile isJsSpace).reverse.dropWhile isJsSpace).reverse

/-- Lowercasing of a character-list string (`String.toLowerCase`). -/
def lcList (l : List Char) : List Char := l.map Char.toLower

/-- JavaScript `replace("0x", "")`: removes the first occurrence of the
substring `0x`, scanning left to right. -/
def replaceFirst0x : List Char → List Char
  | [] => []
  | [c] => [c]
  | c1 :: c2 :: rest =>
      if c1 = '0' ∧ c2 = 'x' then rest else c1 :: replaceFirst0x (c2 :: rest)

/-- The hash comparison of the extrinsic scan (lines 1167-1178): six
alternative representations tolerate prefix and case variation. -/
def matchesHash (extHash searchHash normalizedHash : List Char) : Bool :=
  extHash == searchHash ||
  extHash == normalizedHash ||
  lcList extHash == lcList searchHash ||
  lcList extHash == lcList normalizedHash ||
  extHash == replaceFirst0x searchHash ||
  extHash == replaceFirst0x normalizedHash

/-- JavaScript `Array.findIndex`, with the not-found `-1` modelled `none`. -/
def jsFindIndex {α : Type} (p : α → Bool) : List α → Option Nat
  | [] => none
  | x :: xs => if p x then some 0 else (jsFindIndex p xs).map (fun i => i + 1)

structure TransactionDetailsM where
  hash : List Char
  blockNumber : Nat
  blockHash : List Char
  index : Nat
  methodName : String
  sectionName : String
  signer : String
  timestamp : Option Nat
  success : Bool
  fee : List Char
  args : List String
  events : List EventM
  error : Option String
  nonce : Nat
  tip : String
  era : Nat
  signature : String
  isDecoded : Bool
  decodedArgs : List String
  deriving DecidableEq, Repr

/-- The rpc surface of the hash search: the latest finalized height, and per
height the block hash, block body and events (a `none` stands for any of the
three per-block requests rejecting, which the loop catches and skips). -/
structure SearchApi where
  latestBlockNumber : Nat
  blockDataOf : Int → Option (List Char × SignedBlockM × List EventRecordM)

/-- Builds the `TransactionDetails` record for a located extrinsic (lines
1185-1252).  The `Except` layer records the throws of the timestamp
derivation and of the fee formatting, which the per-block catch turns into
a continue.  (`detectTransferFromExtrinsic` is also invoked at this point in
the source, but its result does not enter the record.) -/
def mkTransactionDetails (blockNumber : Nat) (blockHash : List Char)
    (blk : SignedBlockM) (events : List EventRecordM) (extrinsicIndex : Nat)
    (extrinsic : ExtrinsicM) : Except String TransactionDetailsM :=
  let extrinsicEvents := extrinsicEventsFor events extrinsicIndex
  let success := !(extrinsicEvents.any isExtrinsicFailed)
  match timestampOfBlock blk with
  | .error err => .error err
  | .ok timestamp =>
      let fee := calculateTransactionFee extrinsicEvents
      match formatTxorStore fee.toList with
      | .error err => .error err
      | .ok feeStr =>
          .ok { hash := extrinsic.hash, blockNumber := blockNumber,
                blockHash := blockHash, index := extrinsicIndex,
                methodName := extrinsic.call.methodName,
                sectionName := extrinsic.call.sectionName,
                signer := extrinsic.call.signer.getD "System",
                timestamp := timestamp, success := success, fee := feeStr,
                args := extrinsic.call.args, events := extrinsicEvents,
                error := if success then none else some "Transaction failed",
                nonce := extrinsic.nonce.getD 0, tip := extrinsic.tip.getD "0",
                era := extrinsic.era.getD 0,
                signature := extrinsic.signature.getD "", isDecoded := true,
                decodedArgs := extrinsic.call.args }

/-- The backward scan of `performTransactionSearch` (lines 1155-1261): up to
100 heights, stopping at height `0`; per-height failures (fetch rejections
or detail-construction throws) skip to the next height. -/
def searchLoop (api : SearchApi) (searchHash normalizedHash : List Char) :
    Nat → Int → Option TransactionDetailsM
  | 0, _ => none
  | fuel + 1, blockNumber =>
      if blockNumber < 0 then none
      else
        match api.blockDataOf blockNumber with
        | none => searchLoop api searchHash normalizedHash fuel (blockNumber - 1)
        | some (blockHash, blk, events) =>
            match jsFindIndex
                (fun e => matchesHash e.hash searchHash normalizedHash)
                blk.extrinsics with
            | none => searchLoop api searchHash normalizedHash fuel (blockNumber - 1)
            | some extrinsicIndex =>
                match blk.extrinsics.get? extrinsicIndex with
                | none => searchLoop api searchHash normalizedHash fuel (blockNumber - 1)
                | some extrinsic =>
                    match mkTransactionDetails blockNumber.toNat blockHash blk events
                        extrinsicIndex extrinsic with
                    | .error _ =>
                        searchLoop api searchHash normalizedHash fuel (blockNumber - 1)
                    | .ok d => some d

/-- Model of `findTransactionByHash` (lines 1101-1135) composed with
`performTransactionSearch`: trims the input, supplies a `0x` prefix when
missing and runs the scan (the 30 s race is temporal and not modelled; the
value compared here is the search result). -/
def findTransactionByHash (api : SearchApi) (hash : List Char) :
    Option TransactionDetailsM :=
  let normalizedHash := jsTrim hash
  let searchHash :=
    if ['0', 'x'].isPrefixOf normalizedHash then normalizedHash
    else '0' :: 'x' :: normalizedHash
  searchLoop api searchHash normalizedHash 100 (api.latestBlockNumber : Int)

/-! ## Concrete instances used by the counterexamples and witnesses,
and the specification predicates of the hash-normalization claim -/

/-- The concrete extrinsic of the C1 counterexample: not itself
transfer-shaped, so only the event scan can fire. -/
def extC1 : ExtrinsicCall :=
  { sectionName := "system", methodName := "remark", args := [], signer := some "alice" }

/-- The concrete event subset of the C1 counterexample: the first
family-matching event carries only two data fields, the second is a fully
Transfer-shaped `balances.Transfer` with positional `(from, to, amount)`. -/
def evsC1 : List EventM :=
  [{ sectionName := "balances", methodName := "Transfer", data := ["x", "y"] },
   { sectionName := "balances", methodName := "Transfer", data := ["a", "b", "c"] }]

/-- The decimal numeral of `2 ^ 127 + 2 ^ 74 - 10 ^ 19`, a value below
`2 ^ 128` whose binary64 reading rounds all the way down to `2 ^ 127`. -/
def c2Input : List Char := "170141183460469250611153235194464960512".toList

/-- The state after a successful `connect()` from the initial state. -/
def c3Connected : GState := connect initialGState none (fun _ => true) 1000

/-- The state right after `disconnect()` completes on the connected state. -/
def c3AfterDisconnect : GState := disconnect c3Connected

/-- A two-height batch for the C7 witness: height 1 succeeds with one
extrinsic, height 0 fails its hash lookup. -/
def c7Api : TxApi :=
  { finalizedHead := some ['h'],
    headerNumberOf := fun h => if h = ['h'] then some 1 else none,
    blockHashOf := fun n => if n = 1 then some ['b', '1'] else none,
    blockAndEventsOf := fun h =>
      if h = ['b', '1'] then
        some ({ extrinsics :=
                  [{ hash := ['0', 'x', 'a', 'a'],
                     call := { sectionName := "system", methodName := "remark",
                               args := [], signer := none },
                     nonce := none, tip := none, era := none, signature := none }],
                jsonSize := 50 }, [])
      else none }

def c7Block : BlockM :=
  { height := 1, hash := ['b', '1'], timestamp := none, txCount := 1,
    proposer := "Unknown", size := 50 }

def c7Tx : TransactionM :=
  { hash := ['0', 'x', 'a', 'a'], blockNumber := 1, blockHash := ['b', '1'],
    index := 0, methodName := "remark", sectionName := "system",
    signer := "System", timestamp := none, success := true, fee := ['0'],
    args := [], isTransfer := false, transferFrom := none, transferTo := none,
    transferAmount := none, transferAsset := "XOR", events := [],
    decodedData := .noData }

def decimalChars : List Char :=
  ['0', '1', '2', '3', '4', '5', '6', '7', '8', '9']

def lowerHexChars : List Char :=
  decimalChars ++ ['a', 'b', 'c', 'd', 'e', 'f']

def hexChars : List Char := lowerHexChars ++ ['A', 'B', 'C', 'D', 'E', 'F']

/-- A canonical extrinsic hash as `toHex()` prints it: `0x` followed by a
non-empty run of lowercase hex digits. -/
def CanonicalHex (l : List Char) : Prop :=
  ∃ ds, l = '0' :: 'x' :: ds ∧ ds ≠ [] ∧ ∀ c ∈ ds, c ∈ lowerHexChars

/-- Strip a literal `0x` prefix when present. -/
def strip0x (l : List Char) : List Char :=
  if List.isPrefixOf ['0', 'x'] l then l.drop 2 else l

/-- A user-supplied hash string: after stripping an optional `0x` prefix, a
non-empty run of hex digits of either case. -/
def IsHashInput (l : List Char) : Prop :=
  strip0x l ≠ [] ∧ ∀ c ∈ strip0x l, c ∈ hexChars

/-- The canonical form a hash input denotes: `0x` plus its lowercased
digits. -/
def canonicalOfInput (l : List Char) : List Char :=
  '0' :: 'x' :: lcList (strip0x l)

/-- The single extrinsic of the C8 witness chain. -/
def c8Ext : ExtrinsicM :=
  { hash := ['0', 'x', 'a', 'b', '1', '2'],
    call := { sectionName := "balances", methodName := "transfer",
              args := ["bob", "5"], signer := some "alice" },
    nonce := some 1, tip := some "0", era := some 0, signature := some "sig" }

/-- A one-block chain for the C8 witness, holding a single extrinsic with
canonical hash `0xab12`. -/
def c8Api : SearchApi :=
  { latestBlockNumber := 0,
    blockDataOf := fun bn =>
      if bn = 0 then
        some (['0', 'x', 'f', 'f'], { extrinsics := [c8Ext], jsonSize := 10 }, [])
      else none }

/-! ## Helper lemmas on digit strings -/

theorem foldl_digits_reverse (L : List Nat) (a : Nat) :
    L.reverse.foldl (fun x d => x * 10 + d) a = a * 10 ^ L.length + Nat.ofDigits 10 L := by
  induction L generalizing a with
  | nil => simp
  | cons d T ih =>
      simp only [List.reverse_cons, List.foldl_append, List.foldl_cons, List.foldl_nil,
        Nat.ofDigits_cons, List.length_cons, ih]
      ring

theorem foldl_congr_mem {α β : Type} (l : List α) (f g : β → α → β) (a : β)
    (h : ∀ x ∈ l, ∀ b, f b x = g b x) : l.foldl f a = l.foldl g a := by
  induction l generalizing a with
  | nil => rfl
  | cons x t ih =>
      simp only [List.foldl_cons]
      rw [h x (by simp)]
      exact ih _ (fun y hy b => h y (by simp [hy]) b)

theorem charToDigit_digitChar {d : Nat} (hd : d < 10) :
    charToDigit (Nat.digitChar d) = d := by
  interval_cases d <;> decide

/-- Round trip: reading back the decimal print of `n` recovers `n`. -/
theorem natOfDigits_digitsOfNat (n : Nat) : natOfDigits (digitsOfNat n) = n := by
  unfold digitsOfNat
  by_cases h : n = 0
  · simp [h, natOfDigits, charToDigit]
  · simp only [h, if_false]
    unfold natOfDigits
    rw [List.foldl_map]
    have hdig : ∀ d ∈ (Nat.digits 10 n).reverse, charToDigit (Nat.digitChar d) = d := by
      intro d hdm
      exact charToDigit_digitChar (Nat.digits_lt_base (by norm_num) (List.mem_reverse.mp hdm))
    calc (Nat.digits 10 n).reverse.foldl (fun x c => x * 10 + charToDigit (Nat.digitChar c)) 0
        = (Nat.digits 10 n).reverse.foldl (fun x d => x * 10 + d) 0 := by
          exact foldl_congr_mem _ _ _ _ (fun d hd b => by rw [hdig d hd])
      _ = n := by
          rw [foldl_digits_reverse]
          simp [Nat.ofDigits_digits]

/-- Characters the decimal print of a natural number can use. -/
theorem digitsOfNat_chars (n : Nat) :
    ∀ c ∈ digitsOfNat n, c ∈ ['0', '1', '2', '3', '4', '5', '6', '7', '8', '9'] := by
  intro c hc
  unfold digitsOfNat at hc
  by_cases h : n = 0
  · simp [h] at hc; simp [hc]
  · simp only [h, if_false, List.mem_map, List.mem_reverse] at hc
    obtain ⟨d, hd, rfl⟩ := hc
    have : d < 10 := Nat.digits_lt_base (by norm_num) hd
    interval_cases d <;> decide

/-! ## Helper lemmas on the connection manager -/

theorem scheduleReconnect_capped (s : GState)
    (h : MAX_RETRIES ≤ s.apiState.connectionAttempts) : scheduleReconnect s = s := by
  unfold scheduleReconnect
  by_cases hrt : s.reconnectTimeout = true
  · rw [if_pos hrt]
  · rw [if_neg hrt, if_pos h]

theorem scheduleReconnect_attempts (s : GState) :
    (scheduleReconnect s).apiState.connectionAttempts = s.apiState.connectionAttempts := by
  unfold scheduleReconnect
  split
  · rfl
  · split <;> rfl

theorem setupHealthMonitoring_apiState (s : GState) :
    (setupHealthMonitoring s).apiState = s.apiState := by
  unfold setupHealthMonitoring
  split <;> rfl

theorem connectLoop_attempts (eps : List String) (startIndex : Nat)
    (oracle : String → Bool) (now : Nat) :
    ∀ (remaining i : Nat) (s : GState),
      (connectLoop eps startIndex oracle now remaining i s).apiState.connectionAttempts =
        s.apiState.connectionAttempts := by
  intro remaining
  induction remaining with
  | zero =>
      intro i s
      simp only [connectLoop]
      rw [scheduleReconnect_attempts]
  | succ n ih =>
      intro i s
      simp only [connectLoop]
      split
      · simp [setupHealthMonitoring_apiState, setupProviderListeners]
      · rw [ih]
        simp [cleanupConnection, setupProviderListeners]

theorem connect_attempts (s : GState) (a : Option String) (oracle : String → Bool)
    (now : Nat) (h : s.apiState.status ≠ .connecting) :
    (connect s a oracle now).apiState.connectionAttempts =
      s.apiState.connectionAttempts + 1 := by
  unfold connect
  rw [if_neg h]
  rw [connectLoop_attempts]
  rfl

theorem connectLoop_success_proj (eps : List String) (startIndex : Nat)
    (oracle : String → Bool) (now m i : Nat) (s : GState)
    (hsucc : oracle (eps.getD ((startIndex + i) % eps.length) "") = true) :
    (connectLoop eps startIndex oracle now (m + 1) i s).apiState.status = .connected ∧
    (connectLoop eps startIndex oracle now (m + 1) i s).retryDelay = INITIAL_RETRY_DELAY ∧
    (connectLoop eps startIndex oracle now (m + 1) i s).currentEndpointIndex =
      (startIndex + i) % eps.length := by
  simp only [connectLoop]
  rw [if_pos hsucc]
  refine ⟨?_, rfl, rfl⟩
  rw [setupHealthMonitoring_apiState]

theorem connect_success_shape (s : GState) (now : Nat)
    (h : s.apiState.status ≠ .connecting) :
    (connect s none (fun _ => true) now).apiState.status = .connected ∧
    (connect s none (fun _ => true) now).retryDelay = INITIAL_RETRY_DELAY ∧
    (connect s none (fun _ => true) now).currentEndpointIndex = 0 := by
  unfold connect
  rw [if_neg h]
  obtain ⟨h1, h2, h3⟩ :=
    connectLoop_success_proj ENDPOINTS (cleanupConnection (connectPrefix s)).currentEndpointIndex
      (fun _ => true) now 0 0 (cleanupConnection (connectPrefix s)) rfl
  exact ⟨h1, h2, h3.trans (by simp [ENDPOINTS, Nat.mod_one])⟩

/-- C4: once the connection-attempt counter has reached `MAX_RETRIES`,
`scheduleReconnect` is a no-op — it arms no new reconnect timer (and touches
nothing else), so no further automatic reconnection is scheduled until the
counter is reset. -/
theorem claim_c4_no_reconnect_after_cap (s : GState)
    (h : MAX_RETRIES ≤ s.apiState.connectionAttempts) :
    scheduleReconnect s = s ∧ (scheduleReconnect s).reconnectTimeout = s.reconnectTimeout :=
  ⟨scheduleReconnect_capped s h, by rw [scheduleReconnect_capped s h]⟩

theorem claim_c4_witness :
    MAX_RETRIES ≤ ({ initialGState with
      apiState := { initialApiState with connectionAttempts := 5 } } : GState).apiState.connectionAttempts ∧
    scheduleReconnect { initialGState with
      apiState := { initialApiState with connectionAttempts := 5 } } =
      { initialGState with apiState := { initialApiState with connectionAttempts := 5 } } :=
  ⟨by decide,
   (claim_c4_no_reconnect_after_cap
     { initialGState with apiState := { initialApiState with connectionAttempts := 5 } }
     (by decide)).1⟩

theorem connect_noop_of_connecting (s : GState) (a : Option String)
    (oracle : String → Bool) (now : Nat) (h : s.apiState.status = .connecting) :
    connect s a oracle now = s := by
  unfold connect
  rw [if_pos h]

/-- C6: while the status is `connecting`, `connect()` is a no-op returning
the state unchanged; in particular a second `connect()` issued right after
the synchronous prefix of a first one (which sets the status to
`connecting`) changes nothing, so at most one attempt is in flight. -/
theorem claim_c6_connect_noop_while_connecting :
    (∀ (s : GState) (a : Option String) (oracle : String → Bool) (now : Nat),
        s.apiState.status = .connecting → connect s a oracle now = s) ∧
    (∀ (s : GState) (a : Option String) (oracle : String → Bool) (now : Nat),
        connect (connectPrefix s) a oracle now = connectPrefix s) :=
  ⟨connect_noop_of_connecting,
   fun s a oracle now => connect_noop_of_connecting (connectPrefix s) a oracle now rfl⟩

theorem claim_c6_witness :
    connect { initialGState with
        apiState := { initialApiState with status := .connecting } } none
        (fun _ => true) 7 =
      { initialGState with apiState := { initialApiState with status := .connecting } } :=
  claim_c6_connect_noop_while_connecting.1
    { initialGState with apiState := { initialApiState with status := .connecting } }
    none (fun _ => true) 7 rfl

/-- C10: `connect()` increments the attempt counter on every invocation that
passes the connecting-guard; a successful connection ends `connected` with
the backoff delay and endpoint index reset but the counter still
incremented (never reset); only `disconnect()` zeroes the counter; and at
the `MAX_RETRIES` cap `scheduleReconnect` schedules nothing. -/
theorem claim_c10_attempt_counter :
    (∀ (s : GState) (a : Option String) (oracle : String → Bool) (now : Nat),
        s.apiState.status ≠ .connecting →
        (connect s a oracle now).apiState.connectionAttempts =
          s.apiState.connectionAttempts + 1) ∧
    (∀ (s : GState) (now : Nat), s.apiState.status ≠ .connecting →
        (connect s none (fun _ => true) now).apiState.status = .connected ∧
        (connect s none (fun _ => true) now).retryDelay = INITIAL_RETRY_DELAY ∧
        (connect s none (fun _ => true) now).currentEndpointIndex = 0 ∧
        (connect s none (fun _ => true) now).apiState.connectionAttempts =
          s.apiState.connectionAttempts + 1) ∧
    (∀ s : GState, (disconnect s).apiState.connectionAttempts = 0) ∧
    (∀ s : GState, MAX_RETRIES ≤ s.apiState.connectionAttempts →
        scheduleReconnect s = s) := by
  refine ⟨connect_attempts, ?_, fun s => rfl, scheduleReconnect_capped⟩
  intro s now h
  obtain ⟨h1, h2, h3⟩ := connect_success_shape s now h
  exact ⟨h1, h2, h3, connect_attempts s none (fun _ => true) now h⟩

theorem claim_c10_witness :
    (connect initialGState none (fun _ => true) 42).apiState.connectionAttempts = 1 ∧
    (connect initialGState none (fun _ => true) 42).apiState.status = .connected ∧
    (disconnect initialGState).apiState.connectionAttempts = 0 := by
  refine ⟨?_, (claim_c10_attempt_counter.2.1 initialGState 42 (by decide)).1,
    claim_c10_attempt_counter.2.2.1 initialGState⟩
  have := claim_c10_attempt_counter.1 initialGState none (fun _ => true) 42 (by decide)
  simpa using this

/-! ## Helper lemmas on the metrics computation -/

/-- C9: the metrics aggregator's `networkHealth` is `0` when there are no
validators, and always lies within `[0, 100]` (no division error can occur,
since the zero-total case never divides). -/
theorem claim_c9_network_health_bounds (validatorsEntries : List ValidatorPrefs) :
    (validatorsEntries.length = 0 → networkHealthOf validatorsEntries = 0) ∧
    0 ≤ networkHealthOf validatorsEntries ∧ networkHealthOf validatorsEntries ≤ 100 := by
  unfold networkHealthOf jsMathRound
  have ho : (validatorsEntries.filter (fun p => !p.blocked)).length ≤ validatorsEntries.length :=
    List.length_filter_le _ _
  by_cases hT : 0 < validatorsEntries.length
  · rw [if_pos hT]
    refine ⟨fun h => absurd h (by omega), ?_, ?_⟩
    · apply Int.le_floor.mpr
      have h0 : (0 : ℚ) ≤ ((validatorsEntries.filter (fun p => !p.blocked)).length : ℚ) /
          (validatorsEntries.length : ℚ) * 100 := by positivity
      push_cast
      linarith
    · have hTpos : (0 : ℚ) < (validatorsEntries.length : ℚ) := by exact_mod_cast hT
      have hq : ((validatorsEntries.filter (fun p => !p.blocked)).length : ℚ) /
          (validatorsEntries.length : ℚ) ≤ 1 := by
        apply div_le_one_of_le₀
        · exact_mod_cast ho
        · linarith
      have hle : ((validatorsEntries.filter (fun p => !p.blocked)).length : ℚ) /
          (validatorsEntries.length : ℚ) * 100 + 1 / 2 ≤ (100 : ℚ) + 1 / 2 := by linarith
      calc ⌊((validatorsEntries.filter (fun p => !p.blocked)).length : ℚ) /
            (validatorsEntries.length : ℚ) * 100 + 1 / 2⌋
          ≤ ⌊(100 : ℚ) + 1 / 2⌋ := Int.floor_le_floor hle
        _ = 100 := by norm_num
  · rw [if_neg hT]
    exact ⟨fun _ => rfl, le_refl 0, by norm_num⟩

theorem claim_c9_witness :
    networkHealthOf [] = 0 ∧
    0 ≤ networkHealthOf [⟨false⟩, ⟨true⟩, ⟨false⟩] ∧
    networkHealthOf [⟨false⟩, ⟨true⟩, ⟨false⟩] ≤ 100 :=
  ⟨(claim_c9_network_health_bounds []).1 rfl,
   (claim_c9_network_health_bounds [⟨false⟩, ⟨true⟩, ⟨false⟩]).2.1,
   (claim_c9_network_health_bounds [⟨false⟩, ⟨true⟩, ⟨false⟩]).2.2⟩

/-! ## The balance-formatter safety claim (C5) -/

/-- C1 counterexample: the event subset contains a Transfer-shaped
`balances.Transfer` event whose positional fields are `(a, b, c)`, yet the
detector — which only consults the first family-matching event and finds it
carrying fewer than three fields — marks the extrinsic as a transfer while
leaving `from`/`to`/`amount` unset, so the event's fields do not become the
resulting `transferFrom`/`transferTo`/`transferAmount`. -/
theorem claim_c1_counterexample :
    (∃ e ∈ evsC1, isTransferFamilyEvent e = true ∧ e.data = ["a", "b", "c"]) ∧
    (detectTransferFromExtrinsic extC1 evsC1).isTransfer = true ∧
    (detectTransferFromExtrinsic extC1 evsC1).fromAddr = none ∧
    (detectTransferFromExtrinsic extC1 evsC1).toAddr = none ∧
    (detectTransferFromExtrinsic extC1 evsC1).amount = none := by
  refine ⟨⟨{ sectionName := "balances", methodName := "Transfer", data := ["a", "b", "c"] },
    by decide, by decide, rfl⟩, ?_, ?_, ?_, ?_⟩ <;> rfl

/-- C1 amended: whenever the first family-matching event of the extrinsic's
selected event subset carries at least three positional data fields, the
detector marks the extrinsic as a transfer and that event's fields
`(from, to, amount)` become `transferFrom`/`transferTo`/`transferAmount`,
overriding any method-name guess; a first matching event with fewer fields
still sets the transfer flag but leaves the method-based guess in place. -/
theorem claim_c1_event_override (extrinsic : ExtrinsicCall) (events : List EventM)
    (e : EventM) (rest : List EventM)
    (hfilter : events.filter isTransferFamilyEvent = e :: rest)
    (hlen : 3 ≤ e.data.length) :
    (detectTransferFromExtrinsic extrinsic events).isTransfer = true ∧
    (detectTransferFromExtrinsic extrinsic events).fromAddr = e.data.get? 0 ∧
    (detectTransferFromExtrinsic extrinsic events).toAddr = e.data.get? 1 ∧
    (detectTransferFromExtrinsic extrinsic events).amount = e.data.get? 2 := by
  refine ⟨?_, ?_, ?_, ?_⟩ <;>
  · simp only [detectTransferFromExtrinsic, hfilter]
    split_ifs <;> rfl

theorem claim_c1_witness :
    (detectTransferFromExtrinsic
      { sectionName := "balances", methodName := "transfer",
        args := ["dave", "7"], signer := some "carol" }
      [{ sectionName := "tokens", methodName := "Transfer",
         data := ["f", "t", "9"] }]).isTransfer = true ∧
    (detectTransferFromExtrinsic
      { sectionName := "balances", methodName := "transfer",
        args := ["dave", "7"], signer := some "carol" }
      [{ sectionName := "tokens", methodName := "Transfer",
         data := ["f", "t", "9"] }]).fromAddr = some "f" ∧
    (detectTransferFromExtrinsic
      { sectionName := "balances", methodName := "transfer",
        args := ["dave", "7"], signer := some "carol" }
      [{ sectionName := "tokens", methodName := "Transfer",
         data := ["f", "t", "9"] }]).toAddr = some "t" ∧
    (detectTransferFromExtrinsic
      { sectionName := "balances", methodName := "transfer",
        args := ["dave", "7"], signer := some "carol" }
      [{ sectionName := "tokens", methodName := "Transfer",
         data := ["f", "t", "9"] }]).amount = some "9" :=
  claim_c1_event_override
    { sectionName := "balances", methodName := "transfer",
      args := ["dave", "7"], signer := some "carol" }
    [{ sectionName := "tokens", methodName := "Transfer", data := ["f", "t", "9"] }]
    { sectionName := "tokens", methodName := "Transfer", data := ["f", "t", "9"] } []
    (by decide) (by decide)

/-! ## The arbitrary-precision claim on the padded formatter (C2) -/

theorem takeWhile_all {p : Char → Bool} :
    ∀ {l : List Char}, (∀ c ∈ l, p c = true) → l.takeWhile p = l := by
  intro l
  induction l with
  | nil => intro _; rfl
  | cons c t ih =>
      intro h
      rw [List.takeWhile_cons, h c (by simp), ih (fun x hx => h x (by simp [hx]))]
      simp

theorem takeWhile_append_stop {p : Char → Bool} {y : Char} {ys : List Char}
    (hy : p y = false) :
    ∀ {xs : List Char}, (∀ c ∈ xs, p c = true) → (xs ++ y :: ys).takeWhile p = xs := by
  intro xs
  induction xs with
  | nil => intro _; simp [List.takeWhile_cons, hy]
  | cons c t ih =>
      intro h
      rw [List.cons_append, List.takeWhile_cons, h c (by simp),
        ih (fun x hx => h x (by simp [hx]))]
      simp

theorem mem_decimal_ne_dot {c : Char}
    (hc : c ∈ ['0', '1', '2', '3', '4', '5', '6', '7', '8', '9']) :
    decide (c ≠ '.') = true := by
  fin_cases hc <;> decide

set_option maxRecDepth 4000 in
/-- C2 counterexample: on a valid decimal integer input below `2 ^ 128`, the
padded utils formatter — which divides with binary64 floating point rather
than arbitrary-precision integers — returns an integer part different from
the exact `floor(value / 10 ^ 18)`, refuting the no-precision-loss claim. -/
theorem claim_c2_counterexample :
    natOfDigits c2Input < 2 ^ 128 ∧
    formatTxorUtilsIntPart c2Input 18 4 ≠ natOfDigits c2Input / 10 ^ 18 := by
  constructor
  · decide
  · decide

/-- C2 amended: the formatter that performs the division by `10 ^ decimals`
with exact arbitrary-precision integer divide-and-remainder is the compact
store `formatTxor`: on every decimal numeral input (of any magnitude,
including up to and beyond `2 ^ 128`) it returns without throwing and the
integer part of its result is exactly `floor(value / 10 ^ decimals)`.  The
padded utils `formatTxor` never throws on such input but parses and divides
in binary64 floating point, so its integer part is not exact in general. -/
theorem claim_c2_store_divides_exactly (s : List Char) (decimals : Nat)
    (hne : s ≠ []) (hdig : ∀ c ∈ s, c.isDigit = true) :
    ∃ r, formatTxorStore s decimals = Except.ok r ∧
      intPartNat r = natOfDigits s / 10 ^ decimals := by
  unfold formatTxorStore
  by_cases h0 : s = ['0']
  · subst h0
    refine ⟨['0'], by rw [if_pos (Or.inr rfl)], ?_⟩
    simp [intPartNat, natOfDigits, charToDigit, Nat.zero_div]
  · rw [if_neg (by simp [hne, h0])]
    have hall : s.all Char.isDigit = true := List.all_eq_true.mpr hdig
    unfold bnFromString
    rw [if_pos hall]
    have hwhole : ∀ c ∈ digitsOfNat (natOfDigits s / 10 ^ decimals),
        (fun c => decide (c ≠ '.')) c = true :=
      fun c hc => mem_decimal_ne_dot (digitsOfNat_chars _ c hc)
    by_cases hfrac :
        stripTrailingZeros ((padStartZeros decimals
          (digitsOfNat (natOfDigits s % 10 ^ decimals))).take 4) = []
    · refine ⟨digitsOfNat (natOfDigits s / 10 ^ decimals), by simp [hfrac], ?_⟩
      unfold intPartNat
      rw [takeWhile_all hwhole, natOfDigits_digitsOfNat]
    · refine ⟨digitsOfNat (natOfDigits s / 10 ^ decimals) ++ '.' ::
        stripTrailingZeros ((padStartZeros decimals
          (digitsOfNat (natOfDigits s % 10 ^ decimals))).take 4), by simp [hfrac], ?_⟩
      unfold intPartNat
      rw [takeWhile_append_stop (by decide) hwhole, natOfDigits_digitsOfNat]

theorem claim_c2_witness :
    ∃ r, formatTxorStore ("1000000000000000000".toList) 18 = Except.ok r ∧
      intPartNat r = natOfDigits ("1000000000000000000".toList) / 10 ^ 18 :=
  claim_c2_store_divides_exactly ("1000000000000000000".toList) 18 (by decide) (by decide)

/-! ## The disconnect claim (C3) -/

/-- C3 evidence: after `disconnect()` the store state is back at its initial
value, both timers are cleared and `disconnect` is idempotent — but the
handlers `setupProviderListeners` attached to the provider are still
registered (the `eventListeners` cleanup registry that `cleanupConnection`
iterates was never populated), and if the discarded provider emits
`disconnected` — which a `WsProvider` does when its socket closes — the
still-attached handler runs `scheduleReconnect`, which arms a fresh
automatic reconnect timer (the attempt counter having been reset to `0`).
This refutes the claim's assertion that no connection-manager callback can
run until `connect()` is called again. -/
theorem claim_c3_disconnect_leaves_handlers :
    c3AfterDisconnect.apiState = initialApiState ∧
    c3AfterDisconnect.healthCheckInterval = false ∧
    c3AfterDisconnect.reconnectTimeout = false ∧
    disconnect c3AfterDisconnect = c3AfterDisconnect ∧
    callbackEnabled c3AfterDisconnect .providerEvent = true ∧
    (fireProviderDisconnected c3AfterDisconnect).reconnectTimeout = true := by
  refine ⟨rfl, rfl, rfl, ?_, rfl, ?_⟩ <;> decide

/-! ## The per-block failure-isolation claim (C7) -/

theorem mem_insertDescTx {t a : TransactionM} :
    ∀ {l : List TransactionM}, a ∈ insertDescTx t l ↔ a = t ∨ a ∈ l := by
  intro l
  induction l with
  | nil => simp [insertDescTx]
  | cons x xs ih =>
      simp only [insertDescTx]
      split
      · simp [List.mem_cons]
      · simp [List.mem_cons, ih]
        tauto

theorem mem_sortDescTx {a : TransactionM} {l : List TransactionM} :
    a ∈ sortDescTx l ↔ a ∈ l := by
  unfold sortDescTx
  suffices h : ∀ acc, a ∈ l.foldl (fun acc t => insertDescTx t acc) acc ↔
      a ∈ acc ∨ a ∈ l by
    simpa using h []
  induction l with
  | nil => simp
  | cons x xs ih =>
      intro acc
      simp only [List.foldl_cons, ih, mem_insertDescTx, List.mem_cons]
      tauto

/-- C7: in `fetchEnhancedTransactionData`, failures are isolated per block:
any height of the window whose hash lookup, block/event fetch and processing
all succeed contributes its block record to the result, and (as long as the
100-transaction cap is not exceeded) all its transactions as well — no
matter which other heights of the same batch fail — and the function always
returns a value. -/
theorem claim_c7_block_failure_isolated (api : TxApi) (head : List Char)
    (latest n : Nat) (b : BlockM) (ts : List TransactionM) (ok : Bool)
    (hfin : api.finalizedHead = some head)
    (hnum : api.headerNumberOf head = some latest)
    (hn : n ∈ windowBlockNumbers latest)
    (hstep : stepBlock api n = some (b, ts, ok)) :
    b ∈ (fetchEnhancedTransactionData api).blocks ∧
    ((batchTransactions api latest).length ≤ 100 →
      ∀ t ∈ ts, t ∈ (fetchEnhancedTransactionData api).transactions) := by
  have hres : some (b, ts, ok) ∈ batchResults api latest :=
    List.mem_map.mpr ⟨n, hn, hstep⟩
  simp only [fetchEnhancedTransactionData, hfin, hnum]
  constructor
  · exact List.mem_filterMap.mpr ⟨some (b, ts, ok), hres, rfl⟩
  · intro hlen t ht
    rw [mem_sortDescTx, List.take_of_length_le hlen]
    exact List.mem_flatten.mpr ⟨ts, List.mem_filterMap.mpr ⟨some (b, ts, ok), hres, rfl⟩, ht⟩

theorem claim_c7_witness :
    c7Block ∈ (fetchEnhancedTransactionData c7Api).blocks ∧
    c7Tx ∈ (fetchEnhancedTransactionData c7Api).transactions ∧
    stepBlock c7Api 0 = none := by
  have h := claim_c7_block_failure_isolated c7Api ['h'] 1 1 c7Block [c7Tx] true
    rfl rfl (by decide) (by decide)
  exact ⟨h.1, h.2 (by decide) c7Tx (by decide), by decide⟩

/-! ## The hash-normalization claim (C8)

A hash string is a possibly `0x`-prefixed non-empty string of hexadecimal
digits (in either letter case); the hashes `toHex()` stores on extrinsics
are canonical: `0x`-prefixed, lowercase. -/

theorem toLower_zero : Char.toLower '0' = '0' := by decide

theorem toLower_x : Char.toLower 'x' = 'x' := by decide

theorem toLower_fix_lowerHex : ∀ c ∈ lowerHexChars, Char.toLower c = c := by decide

theorem toLower_hex_mem : ∀ c ∈ hexChars, Char.toLower c ∈ lowerHexChars := by decide

theorem x_notMem_hexChars : 'x' ∉ hexChars := by decide

theorem isJsSpace_hexChars : ∀ c ∈ hexChars, isJsSpace c = false := by decide

theorem dropWhile_of_forall_false {p : Char → Bool} :
    ∀ {l : List Char}, (∀ c ∈ l, p c = false) → l.dropWhile p = l := by
  intro l
  induction l with
  | nil => intro _; rfl
  | cons c t ih =>
      intro h
      rw [List.dropWhile_cons, h c (by simp)]
      simp

theorem jsTrim_of_no_space {l : List Char} (h : ∀ c ∈ l, isJsSpace c = false) :
    jsTrim l = l := by
  unfold jsTrim
  rw [dropWhile_of_forall_false h,
    dropWhile_of_forall_false (fun c hc => h c (List.mem_reverse.mp hc)),
    List.reverse_reverse]

theorem replaceFirst0x_leading0x (t : List Char) : replaceFirst0x ('0' :: 'x' :: t) = t := by
  simp [replaceFirst0x]

theorem replaceFirst0x_no_x : ∀ (l : List Char), 'x' ∉ l → replaceFirst0x l = l
  | [], _ => rfl
  | [_], _ => rfl
  | c1 :: c2 :: rest, h => by
      have hx2 : ¬(c1 = '0' ∧ c2 = 'x') := fun hc => h (by simp [hc.2])
      simp only [replaceFirst0x, if_neg hx2]
      rw [replaceFirst0x_no_x (c2 :: rest) (fun hm => h (List.mem_cons_of_mem _ hm))]

theorem map_toLower_of_lowerHex :
    ∀ (ds : List Char), (∀ c ∈ ds, c ∈ lowerHexChars) → ds.map Char.toLower = ds := by
  intro ds
  induction ds with
  | nil => intro _; rfl
  | cons c t ih =>
      intro h
      simp only [List.map_cons, toLower_fix_lowerHex c (h c (by simp)),
        ih (fun x hx => h x (by simp [hx]))]

theorem exists_suffix_of_isPrefixOf0x {h : List Char}
    (hpre : List.isPrefixOf ['0', 'x'] h = true) : ∃ t, h = '0' :: 'x' :: t := by
  obtain ⟨t, ht⟩ := List.isPrefixOf_iff_prefix.mp hpre
  exact ⟨t, ht.symm⟩

theorem no_space_of_hashInput {h : List Char} (hh : IsHashInput h) :
    ∀ c ∈ h, isJsSpace c = false := by
  intro c hc
  by_cases hpre : List.isPrefixOf ['0', 'x'] h = true
  · obtain ⟨t, rfl⟩ := exists_suffix_of_isPrefixOf0x hpre
    have hstrip : strip0x ('0' :: 'x' :: t) = t := by
      unfold strip0x
      rw [if_pos hpre]
      rfl
    rcases List.mem_cons.mp hc with rfl | hc2
    · decide
    rcases List.mem_cons.mp hc2 with rfl | hc3
    · decide
    · exact isJsSpace_hexChars c ((hstrip ▸ hh.2) c hc3)
  · have hstrip : strip0x h = h := by
      unfold strip0x
      rw [if_neg hpre]
    exact isJsSpace_hexChars c ((hstrip ▸ hh.2) c hc)

theorem cons2_inj {a b : Char} {u v : List Char} (h : a :: b :: u = a :: b :: v) :
    u = v := by
  injection h with _ h2
  injection h2

/-- The six-way hash comparison accepts a canonical stored hash exactly when
it is the canonical form of the (already trimmed) input. -/
theorem matchesHash_true_iff {e h : List Char} (he : CanonicalHex e)
    (hh : IsHashInput h) :
    (matchesHash e (if List.isPrefixOf ['0', 'x'] h then h else '0' :: 'x' :: h) h
      = true) ↔ e = canonicalOfInput h := by
  obtain ⟨ds, rfl, hdne, hds⟩ := he
  have hmapds : ds.map Char.toLower = ds := map_toLower_of_lowerHex ds hds
  by_cases hpre : List.isPrefixOf ['0', 'x'] h = true
  · obtain ⟨t, rfl⟩ := exists_suffix_of_isPrefixOf0x hpre
    have hstrip : strip0x ('0' :: 'x' :: t) = t := by
      unfold strip0x
      rw [if_pos hpre]
      rfl
    have ht : ∀ c ∈ t, c ∈ hexChars := hstrip ▸ hh.2
    rw [if_pos hpre]
    unfold matchesHash canonicalOfInput lcList
    rw [hstrip]
    simp only [Bool.or_eq_true, beq_iff_eq, List.map_cons, toLower_zero, toLower_x, hmapds]
    have imEq : '0' :: 'x' :: ds = '0' :: 'x' :: t →
        '0' :: 'x' :: ds = '0' :: 'x' :: List.map Char.toLower t := by
      intro h1
      have hdt : ds = t := cons2_inj h1
      subst hdt
      rw [hmapds]
    have imRep : '0' :: 'x' :: ds = replaceFirst0x ('0' :: 'x' :: t) →
        '0' :: 'x' :: ds = '0' :: 'x' :: List.map Char.toLower t := by
      intro h1
      rw [replaceFirst0x_leading0x] at h1
      have hxt : 'x' ∈ t := by
        rw [← h1]
        simp
      exact absurd (ht 'x' hxt) x_notMem_hexChars
    constructor
    · intro hOr
      tauto
    · intro heq
      tauto
  · have hstrip : strip0x h = h := by
      unfold strip0x
      rw [if_neg hpre]
    have hhex : ∀ c ∈ h, c ∈ hexChars := hstrip ▸ hh.2
    have hxh : 'x' ∉ h := fun hm => absurd (hhex 'x' hm) x_notMem_hexChars
    have hxlc : 'x' ∉ h.map Char.toLower := by
      intro hm
      obtain ⟨c, hcm, hcl⟩ := List.mem_map.mp hm
      have hcll : Char.toLower c ∈ lowerHexChars := toLower_hex_mem c (hhex c hcm)
      rw [hcl] at hcll
      exact absurd hcll (by decide)
    rw [if_neg hpre]
    unfold matchesHash canonicalOfInput lcList
    rw [hstrip]
    simp only [Bool.or_eq_true, beq_iff_eq, List.map_cons, toLower_zero, toLower_x, hmapds]
    have imEq : '0' :: 'x' :: ds = '0' :: 'x' :: h →
        '0' :: 'x' :: ds = '0' :: 'x' :: List.map Char.toLower h := by
      intro h1
      have hdh : ds = h := cons2_inj h1
      subst hdh
      rw [hmapds]
    have imNorm : ¬('0' :: 'x' :: ds = h) := by
      intro h1
      exact hxh (h1 ▸ (by simp : 'x' ∈ '0' :: 'x' :: ds))
    have imLcNorm : ¬('0' :: 'x' :: ds = List.map Char.toLower h) := by
      intro h1
      exact hxlc (h1 ▸ (by simp : 'x' ∈ '0' :: 'x' :: ds))
    have imRep : '0' :: 'x' :: ds = replaceFirst0x ('0' :: 'x' :: h) →
        '0' :: 'x' :: ds = '0' :: 'x' :: List.map Char.toLower h := by
      intro h1
      rw [replaceFirst0x_leading0x] at h1
      exact absurd (h1 ▸ (by simp : 'x' ∈ '0' :: 'x' :: ds)) hxh
    have imRepNorm : ¬('0' :: 'x' :: ds = replaceFirst0x h) := by
      rw [replaceFirst0x_no_x h hxh]
      exact imNorm
    constructor
    · intro hOr
      tauto
    · intro heq
      tauto

theorem jsFindIndex_congr {α : Type} (p q : α → Bool) :
    ∀ (l : List α), (∀ x ∈ l, p x = q x) → jsFindIndex p l = jsFindIndex q l := by
  intro l
  induction l with
  | nil => intro _; rfl
  | cons x xs ih =>
      intro h
      simp only [jsFindIndex, h x (by simp), ih (fun y hy => h y (by simp [hy]))]

theorem searchLoop_congr (api : SearchApi) (s1 n1 s2 n2 : List Char)
    (hchain : ∀ (bn : Int) bh blk evs, api.blockDataOf bn = some (bh, blk, evs) →
      ∀ ext ∈ blk.extrinsics, CanonicalHex ext.hash)
    (hpred : ∀ eh : List Char, CanonicalHex eh →
      matchesHash eh s1 n1 = matchesHash eh s2 n2) :
    ∀ (fuel : Nat) (bn : Int),
      searchLoop api s1 n1 fuel bn = searchLoop api s2 n2 fuel bn := by
  intro fuel
  induction fuel with
  | zero => intro bn; rfl
  | succ f ih =>
      intro bn
      simp only [searchLoop]
      by_cases hbn : bn < 0
      · rw [if_pos hbn, if_pos hbn]
      · rw [if_neg hbn, if_neg hbn]
        cases hdata : api.blockDataOf bn with
        | none => exact ih _
        | some v =>
            obtain ⟨bh, blk, evs⟩ := v
            dsimp only
            rw [jsFindIndex_congr (fun e => matchesHash e.hash s1 n1)
              (fun e => matchesHash e.hash s2 n2) blk.extrinsics
              (fun ext hx => hpred ext.hash (hchain bn bh blk evs hdata ext hx))]
            cases jsFindIndex (fun e => matchesHash e.hash s2 n2) blk.extrinsics with
            | none => exact ih _
            | some idx =>
                dsimp only
                cases blk.extrinsics.get? idx with
                | none => exact ih _
                | some ext =>
                    dsimp only
                    cases mkTransactionDetails bn.toNat bh blk evs idx ext with
                    | error err => exact ih _
                    | ok d => rfl

/-- C8: for canonical stored hashes, the transaction lookup returns the
identical result — the same details record or the same not-found outcome —
for any two hash inputs that agree up to an optional `0x` prefix and the
letter case of their hex digits. -/
theorem claim_c8_hash_lookup_normalizes (api : SearchApi)
    (hchain : ∀ (bn : Int) bh blk evs, api.blockDataOf bn = some (bh, blk, evs) →
      ∀ ext ∈ blk.extrinsics, CanonicalHex ext.hash)
    (h1 h2 : List Char) (hh1 : IsHashInput h1) (hh2 : IsHashInput h2)
    (hcanon : canonicalOfInput h1 = canonicalOfInput h2) :
    findTransactionByHash api h1 = findTransactionByHash api h2 := by
  unfold findTransactionByHash
  rw [jsTrim_of_no_space (no_space_of_hashInput hh1),
    jsTrim_of_no_space (no_space_of_hashInput hh2)]
  apply searchLoop_congr api _ h1 _ h2 hchain
  intro eh he
  have i1 := matchesHash_true_iff he hh1
  have i2 := matchesHash_true_iff he hh2
  rw [hcanon] at i1
  exact Bool.coe_iff_coe.mp (i1.trans i2.symm)

theorem claim_c8_witness :
    findTransactionByHash c8Api ("AB12".toList) =
      findTransactionByHash c8Api ("0xab12".toList) ∧
    (findTransactionByHash c8Api ("0xab12".toList)).isSome = true := by
  constructor
  · exact claim_c8_hash_lookup_normalizes c8Api
      (by
        intro bn bh blk evs hdata ext hx
        by_cases hbn : bn = 0
        · subst hbn
          simp [c8Api] at hdata
          obtain ⟨h1, h2, h3⟩ := hdata
          subst h2
          simp only [List.mem_singleton] at hx
          subst hx
          exact ⟨['a', 'b', '1', '2'], rfl, by decide, by decide⟩
        · simp [c8Api, hbn] at hdata)
      ("AB12".toList) ("0xab12".toList)
      (by constructor <;> decide)
      (by constructor <;> decide)
      (by decide)
  · decide

end Xorion
